import Mathlib

/-!
# Verification of the StarRocks declarative property type system

Shallow embedding of `sqlmesh/core/engine_adapter/starrocks.py`:
the declarative validator framework (primitive validators, `EnumType`,
`AnyOf`, `SequenceOf`, `StructuredTupleType`, `DistributionTupleType`),
the property specification table (`StarRocksPropertySpecs`) and the
DDL-builder helpers of `StarRocksEngineAdapter`
(`_build_table_properties_exp`, `_build_distribution_property`,
`_extract_and_validate_key_columns`, `_reorder_columns_for_key`).

Python values are modelled by the closed universe `Val`; sqlglot AST
nodes by `Expr`.  A validator's `validate` returns
`Except Err (Option Val)`: `.ok (some v)` is a match, `.ok none` is the
silent "does not conform" signal (`None` in Python), and `.error e` is a
raised exception.  The external sqlglot parser, a black box to the
source, is modelled on the small fragment grammar this system feeds it
(bare words, numbers, quoted tokens).
-/

namespace StarRocks

/-- sqlglot AST nodes, restricted to the shapes the property system
recognises: `exp.Identifier`, `exp.Literal`, `exp.Column`, `exp.Tuple`,
`exp.Array`, `exp.Paren`, `exp.EQ`, `exp.Anonymous` and `exp.Var`.
`literal` carries `is_string` (a string vs a number literal);
`identifier` carries `quoted`. -/
inductive Expr where
  | identifier (name : String) (quoted : Bool)
  | literal (value : String) (isString : Bool)
  | column (this : Expr)
  | tuple (expressions : List Expr)
  | array (expressions : List Expr)
  | paren (this : Expr)
  | eq (this : Expr) (expression : Expr)
  | anonymous (name : String) (expressions : List Expr)
  | var (name : String)
  deriving Repr

/-- Python runtime values flowing through the type system: `None`,
`str`, `int`, sqlglot expressions, `list`, `tuple` and `dict` (a dict is
an insertion-ordered association list, as in CPython).  `vref i` stands
for a reference to the `i`-th sub-validator of the enclosing combinator:
the source stores the matched validator *object* inside validated
values; object identity is positional here. -/
inductive Val where
  | none
  | str (s : String)
  | int (n : Int)
  | expr (e : Expr)
  | list (xs : List Val)
  | tuple (xs : List Val)
  | dict (xs : List (String × Val))
  | vref (i : Nat)
  deriving Repr

/-- Exceptions raised by the embedded code, carrying the data the
corresponding Python message interpolates. -/
inductive Err where
  /-- `ValueError` with its message. -/
  | valueError (msg : String)
  /-- `TypeError` with its message. -/
  | typeError (msg : String)
  /-- `SQLMeshError` from `_extract_and_validate_key_columns`:
  "Multiple key types defined in table_properties: {present}". -/
  | multipleKeyTypes (present : List String)
  /-- `SQLMeshError` from `_reorder_columns_for_key`:
  "{key_type} columns {missing} not found in table columns". -/
  | missingKeyColumns (keyType : String) (missing : List String) (available : List String)
  /-- `SQLMeshError` from `_expr_to_column_tuple`: unsupported key expression. -/
  | unsupportedKeyExpr
  /-- `AttributeError` (e.g. `.expressions` on a Python `list`). -/
  | attributeError (msg : String)
  deriving Repr

/-- Python dict assignment `d[k] = v`: replaces the value in place if the
key is present, otherwise appends (CPython insertion-order semantics). -/
def dictSet {α : Type} (d : List (String × α)) (k : String) (v : α) : List (String × α) :=
  if d.any (fun p => p.1 = k) then
    d.map (fun p => if p.1 = k then (k, v) else p)
  else
    d ++ [(k, v)]

/-- Python `k in d`. -/
def dictContains {α : Type} (d : List (String × α)) (k : String) : Bool :=
  d.any (fun p => p.1 = k)

/-- Python `d.get(k)`. -/
def dictGet {α : Type} (d : List (String × α)) (k : String) : Option α :=
  (d.find? (fun p => p.1 = k)).map (·.2)

/-- Python `d.get(k, default)` (also `d[k]` at call sites where the key
was checked to be present). -/
def dictGetD {α : Type} (d : List (String × α)) (k : String) (dflt : α) : α :=
  (dictGet d k).getD dflt

/-- Python `d.pop(k, None)`: the dict with the entry removed. -/
def dictErase {α : Type} (d : List (String × α)) (k : String) : List (String × α) :=
  d.filter (fun p => p.1 ≠ k)

/-! ## String helpers

Python string operations (`str.upper`, `str.strip`, `int(...)`) are
modelled by explicit character-list functions so that every definition
evaluates by kernel reduction. -/

/-- Python `str.upper` on one character. -/
def upChar (c : Char) : Char :=
  if c.isLower then Char.ofNat (c.toNat - 32) else c

/-- Python `str.upper`. -/
def strUpper (s : String) : String := ⟨s.data.map upChar⟩

def isSpaceChar (c : Char) : Bool :=
  c = ' ' || c = '\t' || c = '\n' || c = '\r'

/-- Python `str.strip()`. -/
def strTrim (s : String) : String :=
  ⟨((s.data.dropWhile isSpaceChar).reverse.dropWhile isSpaceChar).reverse⟩

/-- Numeric value of a digit string. -/
def digitsVal (cs : List Char) : Nat :=
  cs.foldl (fun n c => n * 10 + (c.toNat - 48)) 0

/-! ## Fragment parser

`parse_fragment` wraps `sqlglot.parse_one`, an external black box.  It
is modelled on the fragment grammar the property system actually feeds
it: a bare word parses to `exp.Column(exp.Identifier)`, a digit string
to a number `exp.Literal`, a single-quoted token to a string
`exp.Literal`, and a double-quoted token to a quoted-identifier column.
Anything else is a parse failure (`none`). -/

def isWordChar (c : Char) : Bool := c.isAlphanum || c = '_'

def isBareWord (s : String) : Bool :=
  !s.data.isEmpty && s.data.all isWordChar && !(s.data.headD ' ').isDigit

def isDigits (s : String) : Bool := !s.data.isEmpty && s.data.all Char.isDigit

def isQuotedWith (q : Char) (s : String) : Bool :=
  2 ≤ s.data.length && s.data.headD ' ' = q && s.data.getLastD ' ' = q

def stripOuter (s : String) : String := ⟨(s.data.drop 1).dropLast⟩

/-- Model of `parse_fragment` on a `str` input (source lines 57–79):
`sqlglot.parse_one` on success, `none` on `ParseError` (the source turns
that into `ValueError`, which every caller catches and treats as a
failed parse). -/
def parseFragment (s : String) : Option Expr :=
  let t := strTrim s
  if isDigits t then some (.literal t false)
  else if isBareWord t then some (.column (.identifier t false))
  else if isQuotedWith '\'' t then some (.literal (stripOuter t) true)
  else if isQuotedWith '\"' t then some (.column (.identifier (stripOuter t) true))
  else none

/-! ## sqlglot node helpers used by the source -/

/-- `Expression.text("this")` when `this` is itself a node: returns the
inner string of an `Identifier`/`Literal`/`Var`, `""` otherwise. -/
def exprThisText : Expr → String
  | .identifier n _ => n
  | .literal v _ => v
  | .var n => n
  | _ => ""

/-- sqlglot's `Expression.name` property (`self.text("this")`): the
`this` argument if it is a string, the inner string if `this` is an
`Identifier`/`Literal`/`Var`, `""` otherwise. -/
def exprDotName : Expr → String
  | .identifier n _ => n
  | .literal v _ => v
  | .anonymous n _ => n
  | .var n => n
  | .column inner => exprThisText inner
  | .paren inner => exprThisText inner
  | .eq l _ => exprThisText l
  | .tuple _ => ""
  | .array _ => ""

mutual

/-- Python `str(expression)`: sqlglot renders the node back to SQL. -/
def sqlStr : Expr → String
  | .identifier n quoted => if quoted then "\"" ++ n ++ "\"" else n
  | .literal v isString => if isString then "'" ++ v ++ "'" else v
  | .column inner => sqlStr inner
  | .tuple es => "(" ++ String.intercalate ", " (sqlStrList es) ++ ")"
  | .array es => "[" ++ String.intercalate ", " (sqlStrList es) ++ "]"
  | .paren inner => "(" ++ sqlStr inner ++ ")"
  | .eq l r => sqlStr l ++ " = " ++ sqlStr r
  | .anonymous n es => n ++ "(" ++ String.intercalate ", " (sqlStrList es) ++ ")"
  | .var n => n

/-- `sqlStr` over a node's child list. -/
def sqlStrList : List Expr → List String
  | [] => []
  | e :: rest => sqlStr e :: sqlStrList rest

end

/-! ## Validators

A `Validator` models one constructed `DeclarativeType` instance:
`validate` returns `.ok (some v)` on a match, `.ok none` for the silent
`None`, `.error e` for a raised exception; `normalize` is the pure
conversion step.  `tag` is the Python class name, used for the
`isinstance(t, StringType)` probe inside `SequenceOf._extract_elements`
and for error messages. -/

structure Validator where
  tag : String
  validate : Val → Except Err (Option Val)
  normalize : Val → Val

/-- `StringType`: accepts a Python `str` only; normalization is the
identity (the source stores `normalized_type` but never uses it in
`normalize`). -/
def StringType (_normalizedType : String := "str") : Validator where
  tag := "StringType"
  validate := fun v => match v with
    | .str _ => .ok (some v)
    | _ => .ok none
  normalize := fun v => v

/-- `LiteralType`: accepts an `exp.Literal`, or a string that parses
into one; normalizes to the inner string when configured with `"str"`. -/
def LiteralType (normalizedType : Option String := none) : Validator where
  tag := "LiteralType"
  validate := fun v =>
    let v := match v with
      | .str s => match parseFragment s with
        | some e => some (Val.expr e)
        | none => none
      | _ => some v
    match v with
    | some (.expr (.literal a b)) => .ok (some (.expr (.literal a b)))
    | _ => .ok none
  normalize := fun v =>
    match normalizedType, v with
    | some "str", .expr (.literal a _) => .str a
    | _, _ => v

/-- `IdentifierType`: accepts an `exp.Identifier`, or a string that
parses into one; normalizes per the configured target. -/
def IdentifierType (normalizedType : Option String := none) : Validator where
  tag := "IdentifierType"
  validate := fun v =>
    let v := match v with
      | .str s => match parseFragment s with
        | some e => some (Val.expr e)
        | none => none
      | _ => some v
    match v with
    | some (.expr (.identifier a b)) => .ok (some (.expr (.identifier a b)))
    | _ => .ok none
  normalize := fun v =>
    match v with
    | .expr (.identifier a _) =>
      match normalizedType with
      | some "column" => .expr (.column (.identifier a false))
      | some "literal" => .expr (.literal a true)
      | some "str" => .str a
      | _ => v
    | _ => v

/-- `ColumnType`: accepts an `exp.Column`, or a string that parses into
one.  Every instance in the source uses the default `normalized_type`
(`None`, keep-as-column); the `"identifier"`/`"literal"`/`"str"`
branches of the source wrap the column's raw child node into degenerate
nodes that no configured validator ever produces, and are modelled as
the identity here. -/
def ColumnType (normalizedType : Option String := none) : Validator where
  tag := "ColumnType"
  validate := fun v =>
    let v := match v with
      | .str s => match parseFragment s with
        | some e => some (Val.expr e)
        | none => none
      | _ => some v
    match v with
    | some (.expr (.column a)) => .ok (some (.expr (.column a)))
    | _ => .ok none
  normalize := fun v =>
    match normalizedType with
    | none => v
    | some "column" => v
    | some _ => v

/-- `EqType.validate`'s core: `(key_name, right)` from an `exp.EQ` node.
The key is taken from the left side: `left.this.name` for a column,
`left.this` for an identifier, `str(left)` otherwise. -/
def eqPairOfExpr : Expr → Option (String × Expr)
  | .eq l r =>
    some (match l with
      | .column inner => exprDotName inner
      | .identifier n _ => n
      | _ => sqlStr l, r)
  | _ => none

/-- `EqType.validate` on a raw value: a string is parsed first, then the
`exp.EQ` check of `eqPairOfExpr` applies. -/
def eqPair : Val → Option (String × Expr)
  | .str s => (parseFragment s).bind eqPairOfExpr
  | .expr e => eqPairOfExpr e
  | _ => none

/-- `EqType`: validated value is the Python pair `(key, value_expr)`;
normalization is the identity. -/
def EqType : Validator where
  tag := "EqType"
  validate := fun v => .ok ((eqPair v).map (fun p => .tuple [.str p.1, .expr p.2]))
  normalize := fun v => v

/-- `EnumType.validate`'s string-preprocessing step: a string input is
parsed, and the parse result replaces it only when it is an
`Identifier`, `Literal` or `Column`; on parse failure the plain string
is kept. -/
def enumPreprocess : Val → Val
  | .str s =>
    match parseFragment s with
    | some e =>
      match e with
      | .identifier a b => .expr (.identifier a b)
      | .literal a b => .expr (.literal a b)
      | .column a => .expr (.column a)
      | _ => .str s
    | none => .str s
  | v => v

/-- `EnumType._extract_text`: comparable text from a string, literal,
identifier or column (for a column, `value.this` is a node, so
`value.this.name` applies). -/
def extractText : Val → Option String
  | .str s => some s
  | .expr (.literal v _) => some v
  | .expr (.identifier n _) => some n
  | .expr (.column inner) => some (exprDotName inner)
  | _ => none

/-- `EnumType._normalize_text` and the pre-computed
`_values_normalized`: upper-case unless case-sensitive. -/
def enumFold (caseSensitive : Bool) (s : String) : String :=
  if caseSensitive then s else strUpper s

/-- `EnumType.validate` as a function of the configuration: extract
text, case-fold it, and return the folded text when it belongs to the
folded allowed set. -/
def enumValidate (validValues : List String) (caseSensitive : Bool) (v : Val) : Option Val :=
  match extractText (enumPreprocess v) with
  | none => none
  | some text =>
    let normalizedText := enumFold caseSensitive text
    if normalizedText ∈ validValues.map (enumFold caseSensitive) then
      some (.str normalizedText)
    else
      none

/-- `EnumType.normalize`: convert the validated canonical string to the
configured target representation.  In the `"column"` branch the source
builds `exp.Column(this=<raw str>)`; it is modelled as a column over
that name. -/
def enumNormalize (normalizedType : String) : Val → Val
  | .str s =>
    if normalizedType = "str" then .str s
    else if normalizedType = "literal" then .expr (.literal s true)
    else if normalizedType = "identifier" then .expr (.identifier s false)
    else if normalizedType = "column" then .expr (.column (.identifier s false))
    else if normalizedType = "ast_expr" then .expr (.identifier s false)
    else .str s
  | v => v

/-- `EnumType`: membership in a fixed allowed-value set,
case-insensitive by default. -/
def EnumType (validValues : List String) (normalizedType : String := "str")
    (caseSensitive : Bool := false) : Validator where
  tag := "EnumType"
  validate := fun v => .ok (enumValidate validValues caseSensitive v)
  normalize := enumNormalize normalizedType

/-- `isinstance(value, (exp.Func, exp.Anonymous))`.  Dialect keywords
(`RANGE`, `LIST`, `HASH`, `RANDOM`) all parse to `exp.Anonymous`;
recognised built-in function nodes (`exp.Func` subclasses such as
`date_trunc`) are outside the modelled `Expr` universe. -/
def isFuncExpr : Expr → Bool
  | .anonymous _ _ => true
  | _ => false

/-- `FuncType`: accepts a function-call node, or a string that parses
into one; normalization is the identity. -/
def FuncType : Validator where
  tag := "FuncType"
  validate := fun v =>
    let v := match v with
      | .str s => match parseFragment s with
        | some e => some (Val.expr e)
        | none => none
      | _ => some v
    match v with
    | some (.expr e) => if isFuncExpr e then .ok (some (.expr e)) else .ok none
    | _ => .ok none
  normalize := fun v => v

/-! ## `AnyOf` -/

/-- The `for sub_type in self.types` loop of `AnyOf.validate`, carrying
the position of the current candidate; the validated result pairs the
matched sub-validator (by position, `Val.vref`) with its validated
value. -/
def anyOfGo (v : Val) : Nat → List Validator → Except Err (Option Val)
  | _, [] => .ok none
  | i, t :: rest => do
    match ← t.validate v with
    | some w => .ok (some (.tuple [.vref i, w]))
    | none => anyOfGo v (i + 1) rest

/-- `AnyOf`: first-match union.  `validate` tries each sub-validator in
declared order; `normalize` delegates to the matched sub-validator. -/
def AnyOf (types : List Validator) : Validator where
  tag := "AnyOf"
  validate := fun v => anyOfGo v 0 types
  normalize := fun v =>
    match v with
    | .tuple [.vref i, w] =>
      match types.get? i with
      | some t => t.normalize w
      | none => v
    | _ => v

/-! ## `SequenceOf` -/

/-- `SequenceOf._extract_elements` on an AST node: tuples, arrays,
parenthesized groups, and (with `allow_single`) a bare element. -/
def seqExtractExpr (allowSingle : Bool) : Expr → Option (List Val)
  | .tuple es => some (es.map Val.expr)
  | .array es => some (es.map Val.expr)
  | .paren inner =>
    match inner with
    | .tuple es => some (es.map Val.expr)
    | e => some [Val.expr e]
  | e => if allowSingle then some [Val.expr e] else none

/-- `SequenceOf._extract_elements`: native `list`/`tuple` first, then a
string is parsed (with single-string promotion when parsing fails, a
`StringType` element validator is present and `allow_single` is set),
then the AST shapes. -/
def seqExtract (elemTypes : List Validator) (allowSingle : Bool) : Val → Option (List Val)
  | .list xs => some xs
  | .tuple xs => some xs
  | .str s =>
    match parseFragment s with
    | some e => seqExtractExpr allowSingle e
    | none =>
      if allowSingle && elemTypes.any (fun t => t.tag = "StringType") then
        some [.str s]
      else
        none
  | .expr e => seqExtractExpr allowSingle e
  | _ => none

/-- The per-element loop of `SequenceOf.validate`: each element tries
the element validators in order (`AnyOf` behaviour); the whole sequence
fails (silent `none`) as soon as one element matches no validator. -/
def seqValidateElems (elemTypes : List Validator) : List Val → Except Err (Option (List Val))
  | [] => .ok (some [])
  | e :: rest => do
    match ← anyOfGo e 0 elemTypes with
    | none => .ok none
    | some item => do
      match ← seqValidateElems elemTypes rest with
      | none => .ok none
      | some items => .ok (some (item :: items))

/-- `SequenceOf`: validates each extracted element against the element
validators; normalizes elementwise and reassembles per `output_as`. -/
def SequenceOf (elemTypes : List Validator) (allowSingle : Bool := false)
    (outputAs : String := "list") : Validator where
  tag := "SequenceOf"
  validate := fun v =>
    match seqExtract elemTypes allowSingle v with
    | none => .ok none
    | some elems => do
      match ← seqValidateElems elemTypes elems with
      | none => .ok none
      | some items => .ok (some (.list items))
  normalize := fun v =>
    match v with
    | .list items =>
      let normalized := items.map (fun item =>
        match item with
        | .tuple [.vref i, w] =>
          match elemTypes.get? i with
          | some t => t.normalize w
          | none => item
        | _ => item)
      if outputAs = "tuple" then .tuple normalized else .list normalized
    | _ => v

/-! ## `StructuredTupleType` -/

/-- A `Field` declaration of a structured-tuple schema. -/
structure FieldSpec where
  type : Validator
  required : Bool := false
  aliases : List String := []

/-- The alias map built in `StructuredTupleType.__init__`: each
canonical name maps to itself, then each alias maps to its canonical
name. -/
def buildAliasMap (fields : List (String × FieldSpec)) : List (String × String) :=
  fields.foldl
    (fun acc p => p.2.aliases.foldl (fun a al => dictSet a al p.1) (dictSet acc p.1 p.1))
    []

/-- Lookup in the alias map (`self._alias_map.get(key)`). -/
def aliasGet (aliasMap : List (String × String)) (k : String) : Option String :=
  (aliasMap.find? (fun p => p.1 = k)).map (·.2)

/-- `StructuredTupleType._extract_pairs`: the direct children of an
`exp.Tuple` or `exp.Paren`.  The source's `isinstance(value, (exp.Tuple,
list))` branch reads `value.expressions`, which on a native Python
`list` raises `AttributeError`. -/
def stExtractPairs : Val → Except Err (Option (List Expr))
  | .expr (.tuple es) => .ok (some es)
  | .list _ => .error (.attributeError "'list' object has no attribute 'expressions'")
  | .expr (.paren inner) =>
    match inner with
    | .tuple es => .ok (some es)
    | e => .ok (some [e])
  | _ => .ok none

/-- The outcome of processing one sub-expression of a structured tuple:
skip it, raise, abort the whole validation with `None`, or store a
validated field value under its canonical name. -/
inductive PairOutcome where
  | skip
  | err (e : Err)
  | abort
  | store (canonical : String) (vv : Val)

/-- One iteration of the `for pair_expr in pairs` loop of
`StructuredTupleType.validate`: probe the pair with `EqType` (non-EQ
elements are skipped), resolve the key through the alias map (unknown
key: raise in strict mode, else skip), then check the value with the
resolved field's validator (failure: raise in strict mode, else abort
the whole validation; a raised exception propagates). -/
def stPairStep (fields : List (String × FieldSpec)) (aliasMap : List (String × String))
    (name : String) (errUnknown errInvalid : Bool) (p : Expr) : PairOutcome :=
  match eqPair (.expr p) with
  | none => .skip
  | some (key, valueExpr) =>
    match aliasGet aliasMap key with
    | none =>
      if errUnknown then
        .err (.valueError ("Unknown field '" ++ key ++ "' in " ++ name ++
          ". Valid fields: " ++ String.intercalate ", " (fields.map (·.1))))
      else
        .skip
    | some canonical =>
      match (fields.find? (fun f => f.1 = canonical)).map (·.2) with
      | none =>
        -- unreachable: the alias map's range is the set of field names
        .err (.valueError ("KeyError: " ++ canonical))
      | some fspec =>
        match fspec.type.validate (.expr valueExpr) with
        | .error e => .err e
        | .ok none =>
          if errInvalid then
            .err (.valueError ("Invalid value for field '" ++ canonical ++
              "'. Expected type: " ++ fspec.type.tag))
          else
            .abort
        | .ok (some vv) => .store canonical vv

/-- The `for pair_expr in pairs` loop of `StructuredTupleType.validate`,
folding `stPairStep` over the pairs.  The source stores
`(field_spec.type, validated_value)` in the result dict; since the
stored validator is always `FIELDS[canonical].type`, only the validated
value is stored here and `normalize` fetches the field's validator by
canonical name. -/
def stPairsGo (fields : List (String × FieldSpec)) (aliasMap : List (String × String))
    (name : String) (errUnknown errInvalid : Bool) :
    List Expr → List (String × Val) → Except Err (Option (List (String × Val)))
  | [], acc => .ok (some acc)
  | p :: rest, acc =>
    match stPairStep fields aliasMap name errUnknown errInvalid p with
    | .skip => stPairsGo fields aliasMap name errUnknown errInvalid rest acc
    | .err e => .error e
    | .abort => .ok none
    | .store canonical vv =>
      stPairsGo fields aliasMap name errUnknown errInvalid rest (dictSet acc canonical vv)

/-- The required-field check after all pairs are processed: the first
required field absent from the result, in declaration order. -/
def stRequiredMissing (fields : List (String × FieldSpec)) (result : List (String × Val)) :
    Option String :=
  ((fields.find? (fun f => f.2.required && !dictContains result f.1)).map (·.1))

/-- `StructuredTupleType` (parameterized by the subclass name, its
`FIELDS` schema and the two error-strictness flags, whose source
defaults are both `True`). -/
def StructuredTupleType (name : String) (fields : List (String × FieldSpec))
    (errorOnUnknownField : Bool := true) (errorOnInvalidField : Bool := true) : Validator where
  tag := name
  validate := fun v =>
    let parsed : Option Val := match v with
      | .str s => (parseFragment s).map Val.expr
      | _ => some v
    match parsed with
    | none => .ok none
    | some v' => do
      match ← stExtractPairs v' with
      | none => .ok none
      | some pairs => do
        match ← stPairsGo fields (buildAliasMap fields) name errorOnUnknownField
            errorOnInvalidField pairs [] with
        | none => .ok none
        | some result =>
          match stRequiredMissing fields result with
          | some missing =>
            if errorOnInvalidField then
              .error (.valueError ("Required field '" ++ missing ++ "' is missing in " ++ name))
            else
              .ok none
          | none => .ok (some (.dict result))
  normalize := fun v =>
    match v with
    | .dict entries =>
      .dict (entries.map (fun p =>
        match (fields.find? (fun f => f.1 = p.1)).map (·.2) with
        | some fspec => (p.1, fspec.type.normalize p.2)
        | none => p))
    | _ => v

/-! ## `DistributionTupleType` -/

/-- The `FIELDS` schema of `DistributionTupleType`: a required `kind`
enum, optional `columns` (alias `expressions`) and optional `buckets`
(aliases `bucket`, `bucket_num`). -/
def distributionFields : List (String × FieldSpec) :=
  [("kind", { type := EnumType ["HASH", "RANDOM"] "str", required := true }),
   ("columns", { type := SequenceOf [ColumnType, IdentifierType (some "column")],
                 aliases := ["expressions"] }),
   ("buckets", { type := AnyOf [LiteralType, StringType],
                 aliases := ["bucket", "bucket_num"] })]

/-- `DistributionTupleType`, with the base class's default strictness
flags. -/
def DistributionTupleType (errorOnUnknownField : Bool := true)
    (errorOnInvalidField : Bool := true) : Validator :=
  StructuredTupleType "DistributionTupleType" distributionFields
    errorOnUnknownField errorOnInvalidField

/-- `DistributionTupleType.from_enum`. -/
def fromEnum (enumValue : String) (buckets : Val := .none) : Val :=
  .dict [("kind", .str enumValue), ("columns", .list []), ("buckets", buckets)]

/-- `list(expression.args)`: the KEYS of the sqlglot arg dict, in the
order the parser supplies them (for `exp.Anonymous`, `this` then
`expressions`).  This is what `from_func`'s `list(func.args)` iterates —
the arg names, not the argument expressions. -/
def argKeys : Expr → List String
  | .anonymous _ _ => ["this", "expressions"]
  | .identifier _ _ => ["this", "quoted"]
  | .literal _ _ => ["this", "is_string"]
  | .column _ => ["this"]
  | .tuple _ => ["expressions"]
  | .array _ => ["expressions"]
  | .paren _ => ["this"]
  | .eq _ _ => ["this", "expression"]
  | .var _ => ["this"]

/-- `DistributionTupleType.from_func`: `func.name.upper()` selects the
strategy; the `HASH` branch sets `columns = list(func.args)` (the
arg-dict keys); an unrecognized name raises `ValueError`. -/
def fromFunc (func : Expr) (buckets : Val := .none) : Except Err Val :=
  let funcName := strUpper (exprDotName func)
  if funcName = "HASH" then
    .ok (.dict [("kind", .str "HASH"),
                ("columns", .list ((argKeys func).map Val.str)),
                ("buckets", buckets)])
  else if funcName = "RANDOM" then
    .ok (.dict [("kind", .str "RANDOM"), ("columns", .list []), ("buckets", buckets)])
  else
    .error (.valueError ("Unknown distribution function: " ++ funcName))

/-- `DistributionTupleType.to_unified_dict`: a dict passes through
unchanged, a string goes through `from_enum`, a function node through
`from_func`, anything else raises `TypeError`. -/
def toUnifiedDict (normalizedValue : Val) (buckets : Val := .none) : Except Err Val :=
  match normalizedValue with
  | .dict entries => .ok (.dict entries)
  | .str s => .ok (fromEnum s buckets)
  | .expr e =>
    if isFuncExpr e then fromFunc e buckets
    else .error (.typeError "Cannot convert to distribution dict")
  | _ => .error (.typeError "Cannot convert to distribution dict")

/-! ## `StarRocksPropertySpecs` -/

/-- `GeneralColumnListInputSpec`: single or multiple columns, accepting
column / string / identifier forms. -/
def GeneralColumnListInputSpec : Validator :=
  SequenceOf [ColumnType, StringType "column", IdentifierType (some "column")] true

/-- `TableKeySpec` (shared by the four key-type properties). -/
def TableKeySpec : Validator := GeneralColumnListInputSpec

/-- `PartitionedBySpec`: columns, strings, identifiers or partition
functions. -/
def PartitionedBySpec : Validator :=
  SequenceOf [ColumnType, StringType "column", IdentifierType (some "column"), FuncType] true

/-- `PartitionsSpec`: a list of partition-definition strings. -/
def PartitionsSpec : Validator := SequenceOf [StringType] true

/-- `DistributedBySpec`: structured tuple first (constructed with the
base defaults, i.e. strict mode), then the bare `RANDOM` enum, then a
function call. -/
def DistributedBySpec : Validator :=
  AnyOf [DistributionTupleType, EnumType ["RANDOM"] "str", FuncType]

/-- `OrderBySpec`. -/
def OrderBySpec : Validator := GeneralColumnListInputSpec

/-- `GenericPropertyType`: the fallback for unknown properties — plain
strings, literals and identifiers, all normalized to plain strings. -/
def GenericPropertyType : Validator :=
  AnyOf [StringType, LiteralType (some "str"), IdentifierType (some "str")]

/-- `PROPERTY_INPUT_SPEC`. -/
def PROPERTY_INPUT_SPEC : List (String × Validator) :=
  [("primary_key", TableKeySpec),
   ("duplicate_key", TableKeySpec),
   ("unique_key", TableKeySpec),
   ("aggregate_key", TableKeySpec),
   ("partitioned_by", PartitionedBySpec),
   ("partitions", PartitionsSpec),
   ("distributed_by", DistributedBySpec),
   ("order_by", OrderBySpec)]

/-- `StarRocksPropertySpecs.get_property_input_type`: table lookup with
the generic fallback. -/
def getPropertyInputType (propertyName : String) : Validator :=
  ((PROPERTY_INPUT_SPEC.find? (fun p => p.1 = propertyName)).map (·.2)).getD GenericPropertyType

/-- `StarRocksPropertySpecs.validate_and_normalize_property`: run the
input validator; raise `ValueError` naming the property when no
candidate matches; otherwise normalize. -/
def validateAndNormalizeProperty (propertyName : String) (value : Val) : Except Err Val := do
  let inputType := getPropertyInputType propertyName
  match ← inputType.validate value with
  | none =>
    .error (.valueError ("Invalid value for property '" ++ propertyName ++
      "'. Expected type: " ++ inputType.tag))
  | some validated => .ok (inputType.normalize validated)

/-- `DeclarativeType.__call__`: validate then normalize, raising
`ValueError` when validation returns `None`. -/
def callValidator (t : Validator) (value : Val) : Except Err Val := do
  match ← t.validate value with
  | none => .error (.valueError ("Value does not conform to type " ++ t.tag))
  | some validated => .ok (t.normalize validated)

/-! ## DDL builder (`StarRocksEngineAdapter`)

The builder helpers mutate the `table_properties` dict they are given
(`pop`); each is modelled as a function returning its result together
with the dict's state after the call. -/

mutual

/-- A rough model of Python `str()` on the values the builder handles;
in every reachable state the builder only applies it to strings. -/
def pyStr : Val → String
  | .none => "None"
  | .str s => s
  | .int n => toString n
  | .expr e => sqlStr e
  | .list xs => "[" ++ String.intercalate ", " (pyStrList xs) ++ "]"
  | .tuple xs => "(" ++ String.intercalate ", " (pyStrList xs) ++ ")"
  | .dict xs => "\x7b" ++ String.intercalate ", " (pyStrDict xs) ++ "\x7d"
  | .vref i => "<validator " ++ toString i ++ ">"

/-- `pyStr` over a list of values. -/
def pyStrList : List Val → List String
  | [] => []
  | v :: rest => pyStr v :: pyStrList rest

/-- `pyStr` over dict entries. -/
def pyStrDict : List (String × Val) → List String
  | [] => []
  | (k, v) :: rest => (k ++ ": " ++ pyStr v) :: pyStrDict rest

end

/-- Python truthiness on `Val`. -/
def pyTruthy : Val → Bool
  | .none => false
  | .str s => s ≠ ""
  | .int n => n ≠ 0
  | .expr _ => true
  | .list xs => !xs.isEmpty
  | .tuple xs => !xs.isEmpty
  | .dict xs => !xs.isEmpty
  | .vref _ => true

/-- Python `int(x)`: parses a (possibly signed) digit string, passes an
int through, raises otherwise. -/
def pyIntOf : Val → Except Err Int
  | .int n => .ok n
  | .str s =>
    let t := strTrim s
    match t.data with
    | '-' :: rest =>
      if !rest.isEmpty && rest.all Char.isDigit then .ok (-(digitsVal rest : Int))
      else .error (.valueError ("invalid literal for int() with base 10: " ++ s))
    | cs =>
      if !cs.isEmpty && cs.all Char.isDigit then .ok ((digitsVal cs : Nat) : Int)
      else .error (.valueError ("invalid literal for int() with base 10: " ++ s))
  | _ => .error (.typeError "int() argument must be a string or a number")

/-- `exp.to_column(e) if not isinstance(e, exp.Expression) else e`:
an expression passes through; a string becomes a column; anything else
makes `exp.to_column` raise. -/
def toColumnVal : Val → Except Err Expr
  | .expr e => .ok e
  | .str s => .ok (.column (.identifier s false))
  | _ => .error (.valueError "Invalid expression passed to to_column")

/-- The clause fragments `_build_table_properties_exp` can emit. -/
inductive TableClause where
  | schemaComment (text : String)
  | duplicateKey (columns : List String)
  | uniqueKey (columns : List String)
  /-- the partition clause, built from the `partitioned_by` parameter by
  the base class (out of scope here) -/
  | partitionClause
  | distributed (kind : String) (expressions : List Expr) (buckets : Option Int)
  | clusterBy (expressions : List Expr)
  | property (key : String) (value : Val)
  deriving Repr

/-- `str(expr.this.this)` for an `exp.EQ` left side `l`: `l.this` is the
identifier string for identifiers/literals/vars/anonymous, the rendered
inner node for columns/parens, `str(None) = "None"` for tuples/arrays. -/
def strOfLeftThis : Expr → String
  | .identifier n _ => n
  | .literal v _ => v
  | .anonymous n _ => n
  | .var n => n
  | .column inner => sqlStr inner
  | .paren inner => sqlStr inner
  | .eq l _ => sqlStr l
  | .tuple _ => "None"
  | .array _ => "None"

/-- Python `s.strip('"')`: remove double quotes from both ends. -/
def stripDQ (s : String) : String :=
  ⟨((s.data.dropWhile (fun c => c = '"')).reverse.dropWhile (fun c => c = '"')).reverse⟩

/-- One iteration of `_build_distribution_property`'s
`for expr in distributed_by.expressions` loop: an `exp.EQ` whose left
side is a node (always true for AST input) contributes an entry keyed by
`str(expr.this.this).strip('"')`; a literal value is unwrapped to its
string, a column or tuple becomes a list of names, anything else is kept
as the raw expression.  Non-EQ elements contribute nothing. -/
def distInfoStep (acc : List (String × Val)) (e : Expr) : List (String × Val) :=
  match e with
  | .eq l r =>
    let key := stripDQ (strOfLeftThis l)
    let value : Val :=
      match r with
      | .literal v _ => .str v
      | .column c => .list [.str (exprDotName (.column c))]
      | .tuple es => .list (es.map (fun x =>
          match x with
          | .column c => .str (exprDotName (.column c))
          | other => .str (sqlStr other)))
      | other => .expr other
    dictSet acc key value
  | _ => acc

/-- The `distributed_info` dict accumulated from the tuple's EQ
children. -/
def distInfoOf (es : List Expr) : List (String × Val) :=
  es.foldl distInfoStep []

/-- The `expressions` entry of `distributed_info` as a list (a non-list
truthy value is wrapped in a singleton, a falsy one yields `[]`). -/
def distExpressionsOf (info : List (String × Val)) : List Val :=
  match dictGetD info "expressions" (.list []) with
  | .list xs => xs
  | v => if pyTruthy v then [v] else []

/-- The body of `_build_distribution_property` once a `distributed_by`
value has been popped: parse it into `distributed_info`; when no entry
was recognized emit nothing; otherwise build `DISTRIBUTED BY` with
`kind` defaulting to `"RANDOM"`, expressions from the `expressions`
entry fed through `to_column`, and `buckets` via `int()` when truthy. -/
def buildDistributionFromValue (distributedBy : Val) (props : List (String × Val)) :
    Except Err (Option TableClause × List (String × Val)) :=
  let info :=
    match distributedBy with
    | .expr (.tuple es) => distInfoOf es
    | _ => []
  if info.isEmpty then
    .ok (none, props)
  else do
    let kind := pyStr (dictGetD info "kind" (.str "RANDOM"))
    let buckets := dictGetD info "buckets" .none
    let exprs ← (distExpressionsOf info).mapM toColumnVal
    let bucketsOut ←
      if pyTruthy buckets then do
        let n ← pyIntOf buckets
        pure (some n)
      else
        pure none
    .ok (some (.distributed kind exprs bucketsOut), props)

/-- `StarRocksEngineAdapter._build_distribution_property`: pops
`distributed_by` and hands its value to `buildDistributionFromValue`.
Returns the property (or `none`) together with the dict after the
`pop`. -/
def buildDistributionProperty (tableProperties : List (String × Val)) :
    Except Err (Option TableClause × List (String × Val)) :=
  match dictGet tableProperties "distributed_by" with
  | none => .ok (none, tableProperties)
  | some distributedBy =>
    buildDistributionFromValue distributedBy (dictErase tableProperties "distributed_by")

/-- `StarRocksEngineAdapter._expr_to_column_tuple`: tuple of columns /
native list / single column / single string to a tuple of names;
anything else raises `SQLMeshError`. -/
def exprToColumnTuple : Val → Except Err (List String)
  | .expr (.tuple es) => .ok (es.map exprDotName)
  | .list xs => .ok (xs.map (fun x =>
      match x with
      | .expr (.column c) => exprDotName (.column c)
      | v => pyStr v))
  | .tuple xs => .ok (xs.map (fun x =>
      match x with
      | .expr (.column c) => exprDotName (.column c)
      | v => pyStr v))
  | .expr (.column c) => .ok [exprDotName (.column c)]
  | .str s => .ok [s]
  | _ => .error .unsupportedKeyExpr

/-- `StarRocksEngineAdapter._add_key_properties`: pops `duplicate_key`
and `unique_key` and appends the corresponding key clauses. -/
def addKeyProperties (tableProperties : List (String × Val)) :
    Except Err (List TableClause × List (String × Val)) := do
  let dup := dictGet tableProperties "duplicate_key"
  let props := dictErase tableProperties "duplicate_key"
  let dupClauses ←
    match dup with
    | some v => do
      let cols ← exprToColumnTuple v
      pure [TableClause.duplicateKey cols]
    | none => pure ([] : List TableClause)
  let uniq := dictGet props "unique_key"
  let props := dictErase props "unique_key"
  let uniqClauses ←
    match uniq with
    | some v => do
      let cols ← exprToColumnTuple v
      pure [TableClause.uniqueKey cols]
    | none => pure ([] : List TableClause)
  .ok (dupClauses ++ uniqClauses, props)

/-- `StarRocksEngineAdapter._build_order_by_property`: pops `order_by`;
when no `clustered_by` parameter was given, converts it to a clustering
column list; emits an `ORDER BY` clause when the resulting list is
non-empty. -/
def buildOrderByProperty (tableProperties : List (String × Val))
    (clusteredBy : Option (List Expr)) :
    Except Err (Option (List Expr) × List (String × Val)) := do
  let orderBy := dictGet tableProperties "order_by"
  let props := dictErase tableProperties "order_by"
  let clustered ←
    match orderBy, clusteredBy with
    | some ob, none =>
      match ob with
      | .expr (.tuple es) => pure (some es)
      | .list xs => (xs.mapM toColumnVal).map some
      | .tuple xs => (xs.mapM toColumnVal).map some
      | .expr (.column c) => pure (some [Expr.column c])
      | .str s => pure (some [Expr.column (.identifier s false)])
      | _ => pure (none : Option (List Expr))
    | _, _ => pure clusteredBy
  match clustered with
  | some (e :: rest) => .ok (some (e :: rest), props)
  | _ => .ok (none, props)

/-- `StarRocksEngineAdapter._build_other_properties`: every remaining
entry not consumed by the earlier steps becomes a generic property;
literals pass through, strings and numbers are coerced to string
literals, any other value is silently dropped. -/
def buildOtherProperties (tableProperties : List (String × Val)) : List (String × Val) :=
  tableProperties.foldl
    (fun acc p =>
      if p.1 ∈ ["partitions", "duplicate_key", "unique_key", "aggregate_key",
                "distributed_by", "order_by"] then
        acc
      else
        match p.2 with
        | .expr (.literal a b) => acc ++ [(p.1, Val.expr (.literal a b))]
        | .str s => acc ++ [(p.1, Val.expr (.literal s true))]
        | .int n => acc ++ [(p.1, Val.expr (.literal (toString n) true))]
        | _ => acc)
    []

/-- `StarRocksEngineAdapter._build_table_properties_exp`: assembles the
clause list.  The source works on `table_properties_copy =
dict(table_properties)` — a fresh copy — so the second component (the
caller's mapping after the call) is the input mapping itself; all `pop`s
are threaded through the copy only. -/
def buildTablePropertiesExp (tableDescription : Option String)
    (partitionedBy : List Expr) (clusteredBy : Option (List Expr))
    (tableProperties : List (String × Val)) :
    Except Err (Option (List TableClause) × List (String × Val)) := do
  let copy := tableProperties
  let commentClauses :=
    match tableDescription with
    | some d => [TableClause.schemaComment d]
    | none => []
  let (keyClauses, copy) ← addKeyProperties copy
  let partitionClauses := if partitionedBy.isEmpty then [] else [TableClause.partitionClause]
  let (distProp, copy) ← buildDistributionProperty copy
  let distClauses :=
    match distProp with
    | some p => [p]
    | none => []
  let (orderProp, copy) ← buildOrderByProperty copy clusteredBy
  let orderClauses :=
    match orderProp with
    | some es => [TableClause.clusterBy es]
    | none => []
  let otherClauses := (buildOtherProperties copy).map (fun p => TableClause.property p.1 p.2)
  let allClauses := commentClauses ++ keyClauses ++ partitionClauses ++ distClauses ++
    orderClauses ++ otherClauses
  .ok ((if allClauses.isEmpty then none else some allClauses), tableProperties)

/-- The four key-type property names, in the order the source probes
them. -/
def keyTypeNames : List String := ["primary_key", "unique_key", "duplicate_key", "aggregate_key"]

/-- The key-type properties present in a mapping, in probe order. -/
def keyTypesPresent (tableProperties : List (String × Val)) : List String :=
  keyTypeNames.filter (fun k => dictContains tableProperties k)

/-- Python truthiness of the `primary_key` parameter (`if primary_key:`
is false for both `None` and an empty tuple). -/
def pkTruthy : Option (List String) → Bool
  | some (_ :: _) => true
  | _ => false

/-- `StarRocksEngineAdapter._extract_and_validate_key_columns`: raises
`SQLMeshError` naming the present key types when more than one is
defined; gives the `primary_key` parameter priority (popping the
conflicting property from the caller's mapping after a warning);
otherwise reads (without popping) the single key property.  Returns
`((key_type, key_columns), mapping-after-the-call)`. -/
def extractAndValidateKeyColumns (tableProperties : List (String × Val))
    (primaryKey : Option (List String) := none) :
    Except Err ((Option String × Option (List String)) × List (String × Val)) :=
  let present := keyTypesPresent tableProperties
  if 1 < present.length then
    .error (.multipleKeyTypes present)
  else if pkTruthy primaryKey then
    if present.isEmpty then
      .ok ((some "primary_key", primaryKey), tableProperties)
    else
      -- logger.warning(...); table_properties.pop(key_types_present[0], None)
      .ok ((some "primary_key", primaryKey), dictErase tableProperties (present.headD ""))
  else if present.isEmpty then
    .ok ((none, none), tableProperties)
  else
    let keyType := present.headD ""
    let keyExpr := dictGetD tableProperties keyType .none
    (exprToColumnTuple keyExpr).bind
      (fun keyColumns => .ok ((some keyType, some keyColumns), tableProperties))

/-- `set(...)` semantics for the missing-column check: duplicates
removed, first occurrences kept. -/
def dedupKeys : List String → List String
  | [] => []
  | k :: rest => k :: (dedupKeys rest).filter (fun y => y ≠ k)

/-- `StarRocksEngineAdapter._reorder_columns_for_key`: checks every key
column exists, then builds the reordered mapping — key columns first in
key order, then the remaining columns in their original order.  Column
types are modelled as strings. -/
def reorderColumnsForKey (targetColumnsToTypes : List (String × String))
    (keyColumns : List String) (keyType : String := "key") :
    Except Err (List (String × String)) :=
  let missing := dedupKeys (keyColumns.filter
    (fun k => !(targetColumnsToTypes.any (fun p => p.1 = k))))
  if !missing.isEmpty then
    .error (.missingKeyColumns keyType missing (targetColumnsToTypes.map (·.1)))
  else
    let reordered := keyColumns.foldl
      (fun acc k => dictSet acc k (dictGetD targetColumnsToTypes k "")) []
    let reordered := targetColumnsToTypes.foldl
      (fun acc p => if p.1 ∈ keyColumns then acc else dictSet acc p.1 p.2) reordered
    .ok reordered

/-- The column-reordering step of `_create_table_from_columns`: when a
key type was found its columns are reordered to the front
(`if key_columns:` — a non-empty tuple); otherwise the columns pass
through unchanged. -/
def keyReorderStep (keyType : Option String) (keyColumns0 : Option (List String))
    (targetColumnsToTypes : List (String × String)) :
    Except Err (List (String × String)) :=
  let keyColumns :=
    match keyType with
    | some _ => keyColumns0
    | none => none
  match keyColumns with
  | some (c :: cs) => reorderColumnsForKey targetColumnsToTypes (c :: cs) (keyType.getD "key")
  | _ => pure targetColumnsToTypes

/-- The state-relevant part of
`StarRocksEngineAdapter._create_table_from_columns`: key extraction on
the caller's `table_properties`, column reordering, then
`_build_table_properties_exp` (which copies).  Returns the clause list,
the reordered columns and the caller's mapping after the whole
invocation. -/
def createTableFromColumnsState (tableProperties : List (String × Val))
    (targetColumnsToTypes : List (String × String))
    (primaryKey : Option (List String))
    (tableDescription : Option String := none)
    (partitionedBy : List Expr := [])
    (clusteredBy : Option (List Expr) := none) :
    Except Err (Option (List TableClause) × List (String × String) × List (String × Val)) := do
  let ((keyType, keyColumns0), props1) ← extractAndValidateKeyColumns tableProperties primaryKey
  let cols ← keyReorderStep keyType keyColumns0 targetColumnsToTypes
  let (clauses, propsAfter) ← buildTablePropertiesExp tableDescription partitionedBy
    clusteredBy props1
  .ok (clauses, cols, propsAfter)

/-! ## Shared concrete inputs for the theorems -/

/-- A plain (unquoted) column reference, as the model loader supplies
key and distribution columns. -/
def colId (n : String) : Expr := .column (.identifier n false)

/-- The structured-tuple surface form
`(kind='HASH', columns=(id, dt), buckets=10)`. -/
def hashTupleForm : Val :=
  .expr (.tuple
    [.eq (colId "kind") (.literal "HASH" true),
     .eq (colId "columns") (.tuple [colId "id", colId "dt"]),
     .eq (colId "buckets") (.literal "10" false)])

/-- The function-call surface form `HASH(id, dt)`. -/
def hashFuncForm : Expr := .anonymous "HASH" [colId "id", colId "dt"]

/-! ## Theorems -/

/-- C1.  Distribution unification fails on the function-call form: after
`DistributedBySpec` validates/normalizes `HASH(id, dt)` unchanged,
`to_unified_dict` dispatches to `from_func`, whose `columns =
list(func.args)` iterates the KEYS of the sqlglot arg dict — so the
unified mapping's `columns` entry is `["this", "expressions"]`, not the
argument expressions `[id, dt]` that the structured-tuple form yields
(third conjunct) and that `from_func`'s own docstring promises.  The
first two conjuncts evaluate the code on the two surface forms; the
last two state the divergence. -/
theorem c1_from_func_columns_are_arg_keys :
    callValidator DistributedBySpec (.expr hashFuncForm) = .ok (.expr hashFuncForm)
    ∧ toUnifiedDict (.expr hashFuncForm) =
        .ok (.dict [("kind", .str "HASH"),
                    ("columns", .list [.str "this", .str "expressions"]),
                    ("buckets", .none)])
    ∧ (do toUnifiedDict (← callValidator DistributedBySpec hashTupleForm) : Except Err Val) =
        .ok (.dict [("kind", .str "HASH"),
                    ("columns", .list [.expr (colId "id"), .expr (colId "dt")]),
                    ("buckets", .expr (.literal "10" false))])
    ∧ (Val.list [.str "this", .str "expressions"] ≠
        Val.list [.expr (colId "id"), .expr (colId "dt")]) := by
  refine ⟨rfl, rfl, rfl, ?_⟩
  intro h
  simp [colId] at h

/-- C2.  Probing is not silent inside `DistributedBySpec`: the union's
first sub-validator is `DistributionTupleType()` constructed with the
base class's strict defaults (`error_on_unknown_field=True`,
`error_on_invalid_field=True`), so `AnyOf.validate` on the tuple
`(kind='HASH', foo=1)` propagates a raised `ValueError` instead of
returning `None` and falling back to the next candidate. -/
theorem c2_anyof_probe_raises :
    DistributedBySpec.validate
      (.expr (.tuple
        [.eq (colId "kind") (.literal "HASH" true),
         .eq (colId "foo") (.literal "1" false)])) =
    .error (.valueError
      "Unknown field 'foo' in DistributionTupleType. Valid fields: kind, columns, buckets") :=
  rfl

/-- C3 counterexample.  A case-insensitive `EnumType` does not return
the canonical stored spelling: with allowed set `["hash"]`, validating
the string `"hash"` succeeds but returns the UPPER-CASED text `"HASH"`,
which is not a member of the stored set. -/
theorem c3_enum_not_stored_spelling :
    (EnumType ["hash"]).validate (.str "hash") = .ok (some (.str "HASH"))
    ∧ ("HASH" : String) ≠ "hash"
    ∧ "HASH" ∉ (["hash"] : List String) := by
  exact ⟨rfl, by decide, by decide⟩

/-- C5 counterexample.  The claim quantifies over every key-column list
whose names appear in the mapping, but a list with a repeated name
refutes it: for columns `{a: INT, b: TEXT}` and key clause `(a, a)` the
reordered dict collapses the duplicate, so its key sequence `[a, b]` is
not the key clause `[a, a]` followed by the non-key columns `[b]`. -/
theorem c5_reorder_duplicate_key_counterexample :
    reorderColumnsForKey [("a", "INT"), ("b", "TEXT")] ["a", "a"] "primary_key"
      = .ok [("a", "INT"), ("b", "TEXT")]
    ∧ [("a", "INT"), ("b", "TEXT")].map Prod.fst ≠ ["a", "a"] ++ ["b"] := by
  exact ⟨rfl, by decide⟩

/-- C8 counterexample.  One DDL-builder invocation does mutate the
caller's mapping: with the explicit parameter `primary_key = (b,)` and a
`unique_key` entry in the caller's `table_properties`, key extraction
pops `unique_key` from the caller's dict (source line 2048), so the
mapping after the invocation has lost that entry. -/
theorem c8_primary_key_param_pops_caller_mapping :
    createTableFromColumnsState
        [("unique_key", .expr (.tuple [colId "a"])), ("replication_num", .str "3")]
        [("a", "INT"), ("b", "INT")] (some ["b"])
      = .ok (some [TableClause.property "replication_num" (.expr (.literal "3" true))],
             [("b", "INT"), ("a", "INT")],
             [("replication_num", .str "3")])
    ∧ ([("replication_num", Val.str "3")] ≠
        [("unique_key", Val.expr (.tuple [colId "a"])), ("replication_num", Val.str "3")]) := by
  refine ⟨rfl, ?_⟩
  intro h
  simp at h

/-- C10 counterexample.  A distribution tuple that yields a recognized
entry but no `kind` key does not always default to `RANDOM` without
failing: `(buckets='abc')` is recognized (first two conjuncts), yet the
builder raises `ValueError` from `int('abc')` instead of emitting a
`RANDOM` distribution property. -/
theorem c10_buckets_crash_counterexample :
    distInfoOf [.eq (colId "buckets") (.literal "abc" true)] = [("buckets", .str "abc")]
    ∧ dictGet [("buckets", Val.str "abc")] "kind" = none
    ∧ buildDistributionProperty
        [("distributed_by",
          .expr (.tuple [.eq (colId "buckets") (.literal "abc" true)]))]
      = .error (.valueError "invalid literal for int() with base 10: abc") := by
  exact ⟨rfl, rfl, rfl⟩

/-- The only error `_expr_to_column_tuple` can raise is the
unsupported-expression `SQLMeshError`, never the
multiple-key-types one. -/
theorem exprToColumnTuple_no_conflict (v : Val) (l : List String) :
    exprToColumnTuple v ≠ .error (.multipleKeyTypes l) := by
  cases v with
  | expr e => cases e <;> intro h <;>
      first
      | exact Except.noConfusion h
      | (injection h with h'; exact Err.noConfusion h')
  | _ =>
    intro h
    first
    | exact Except.noConfusion h
    | (injection h with h'; exact Err.noConfusion h')

/-- C6.  Key-type conflict detection: when more than one of the four
key-type properties is present in the mapping, key extraction raises the
`SQLMeshError` whose payload names exactly the present key types (in
probe order); when at most one is present, no such conflict error is
ever raised (any remaining failure is the unsupported-key-expression
error).  This holds for every value of the `primary_key` parameter. -/
theorem c6_conflicting_key_types (props : List (String × Val)) (pk : Option (List String)) :
    (1 < (keyTypesPresent props).length →
      extractAndValidateKeyColumns props pk = .error (.multipleKeyTypes (keyTypesPresent props)))
    ∧ ((keyTypesPresent props).length ≤ 1 →
      ∀ l, extractAndValidateKeyColumns props pk ≠ .error (.multipleKeyTypes l)) := by
  constructor
  · intro h
    simp [extractAndValidateKeyColumns, h]
  · intro h l heq
    have hnot : ¬ 1 < (keyTypesPresent props).length := by omega
    simp only [extractAndValidateKeyColumns, if_neg hnot] at heq
    by_cases hpk : pkTruthy pk
    · rw [if_pos hpk] at heq
      by_cases hp : (keyTypesPresent props).isEmpty
      · rw [if_pos hp] at heq; exact Except.noConfusion heq
      · rw [if_neg hp] at heq; exact Except.noConfusion heq
    · rw [if_neg hpk] at heq
      by_cases hp : (keyTypesPresent props).isEmpty
      · rw [if_pos hp] at heq; exact Except.noConfusion heq
      · rw [if_neg hp] at heq
        cases hx : exprToColumnTuple
            (dictGetD props ((keyTypesPresent props).headD "") .none) with
        | ok cols =>
          rw [hx] at heq
          exact Except.noConfusion heq
        | error e =>
          rw [hx] at heq
          injection heq with h'
          exact exprToColumnTuple_no_conflict _ l (hx.trans (by rw [h']))

/-- C6 witness: two key types raise the conflict error naming both; a
single key type never raises it. -/
theorem c6_conflicting_key_types_witness :
    extractAndValidateKeyColumns
        [("duplicate_key", .expr (.tuple [colId "id", colId "name"])),
         ("unique_key", .expr (.tuple [colId "a"]))] none
      = .error (.multipleKeyTypes ["unique_key", "duplicate_key"])
    ∧ ∀ l, extractAndValidateKeyColumns
        [("unique_key", .expr (.tuple [colId "a"]))] none
      ≠ .error (.multipleKeyTypes l) :=
  ⟨(c6_conflicting_key_types
      [("duplicate_key", .expr (.tuple [colId "id", colId "name"])),
       ("unique_key", .expr (.tuple [colId "a"]))] none).1 (by decide),
   fun l => (c6_conflicting_key_types
      [("unique_key", .expr (.tuple [colId "a"]))] none).2 (by decide) l⟩

/-- Case-insensitive folding is upper-casing. -/
theorem enumFold_false : enumFold false = strUpper := rfl

/-- C3 (amended).  A case-insensitive `EnumType` accepts any input whose
extracted text upper-cases into the upper-cased allowed set, and returns
the UPPER-CASED text (not the stored spelling); when every stored value
is itself upper-case this coincides with the canonical stored spelling
(second conjunct).  The three spellings `"hash"`, `HASH` and `'HASH'`
validate and normalize to the identical value `"HASH"` (last three
conjuncts). -/
theorem c3_enum_canonicalization (validValues : List String) (v : Val) (text : String)
    (hx : extractText (enumPreprocess v) = some text)
    (hmem : strUpper text ∈ validValues.map strUpper) :
    (EnumType validValues "str" false).validate v = .ok (some (.str (strUpper text)))
    ∧ ((∀ w ∈ validValues, strUpper w = w) → strUpper text ∈ validValues)
    ∧ callValidator (EnumType ["HASH", "RANDOM"] "str" false) (.str "hash") = .ok (.str "HASH")
    ∧ callValidator (EnumType ["HASH", "RANDOM"] "str" false) (.expr (.identifier "HASH" false))
        = .ok (.str "HASH")
    ∧ callValidator (EnumType ["HASH", "RANDOM"] "str" false) (.expr (.literal "HASH" true))
        = .ok (.str "HASH") := by
  refine ⟨?_, ?_, rfl, rfl, rfl⟩
  · simp only [EnumType, enumValidate, hx, enumFold_false]
    rw [if_pos hmem]
  · intro hcanon
    obtain ⟨w, hwV, hfw⟩ := List.mem_map.mp hmem
    rw [← hfw, hcanon w hwV]
    exact hwV

/-- C3 witness for the amended theorem. -/
theorem c3_enum_canonicalization_witness :
    (EnumType ["HASH", "RANDOM"] "str" false).validate (.str "hash")
      = .ok (some (.str (strUpper "hash")))
    ∧ ((∀ w ∈ ["HASH", "RANDOM"], strUpper w = w) → strUpper "hash" ∈ ["HASH", "RANDOM"])
    ∧ callValidator (EnumType ["HASH", "RANDOM"] "str" false) (.str "hash") = .ok (.str "HASH")
    ∧ callValidator (EnumType ["HASH", "RANDOM"] "str" false) (.expr (.identifier "HASH" false))
        = .ok (.str "HASH")
    ∧ callValidator (EnumType ["HASH", "RANDOM"] "str" false) (.expr (.literal "HASH" true))
        = .ok (.str "HASH") :=
  c3_enum_canonicalization ["HASH", "RANDOM"] (.str "hash") "hash" rfl (by decide)

/-- Skipping a prefix of sub-validators that all return `None` shifts
`AnyOf`'s probe loop past them. -/
theorem anyOfGo_append_of_none (v : Val) (ts₁ rest : List Validator)
    (h : ∀ t ∈ ts₁, t.validate v = .ok none) :
    ∀ i, anyOfGo v i (ts₁ ++ rest) = anyOfGo v (i + ts₁.length) rest := by
  induction ts₁ with
  | nil => intro i; simp
  | cons t tl ih =>
    intro i
    have ht : t.validate v = .ok none := h t (List.mem_cons_self t tl)
    rw [List.cons_append, anyOfGo, ht]
    show anyOfGo v (i + 1) (tl ++ rest) = _
    rw [ih (fun t' ht' => h t' (List.mem_cons_of_mem t ht'))]
    have : i + 1 + tl.length = i + (tl.length + 1) := by omega
    rw [this]
    rfl

/-- `AnyOf`'s probe loop returns `None` exactly when every sub-validator
returns `None`. -/
theorem anyOfGo_none_iff (v : Val) (L : List Validator) :
    ∀ i, anyOfGo v i L = .ok none ↔ ∀ t ∈ L, t.validate v = .ok none := by
  induction L with
  | nil => intro i; simp [anyOfGo]
  | cons t tl ih =>
    intro i
    rw [anyOfGo]
    cases ht : t.validate v with
    | error e =>
      constructor
      · intro h; exact Except.noConfusion h
      · intro h
        have hh := h t (List.mem_cons_self t tl)
        rw [ht] at hh
        exact Except.noConfusion hh
    | ok r =>
      cases r with
      | some w =>
        constructor
        · intro h; injection h with h'; exact Option.noConfusion h'
        · intro h
          have hh := h t (List.mem_cons_self t tl)
          rw [ht] at hh
          injection hh with h'
          exact Option.noConfusion h'
      | none =>
        constructor
        · intro h t' ht'
          rcases List.mem_cons.mp ht' with h1 | h2
          · rw [h1]; exact ht
          · exact (ih (i + 1)).mp h t' h2
        · intro h
          exact (ih (i + 1)).mpr (fun t' ht' => h t' (List.mem_cons_of_mem t ht'))

/-- C4.  `AnyOf` first-match semantics, for every decomposition
`ts₁ ++ tv :: ts₂` of the (necessarily non-empty) sub-validator list:
`validate` returns `None` iff every sub-validator returns `None`
(first conjunct); if every validator before `tv` fails silently and `tv`
matches with validated value `w`, `validate` returns the pair of `tv`
(the first match, referenced by its position) with `w`, and `normalize`
on that pair delegates to `tv.normalize` (second conjunct). -/
theorem c4_anyof_first_match (ts₁ ts₂ : List Validator) (tv : Validator) (v w : Val) :
    ((AnyOf (ts₁ ++ tv :: ts₂)).validate v = .ok none ↔
      ∀ t ∈ ts₁ ++ tv :: ts₂, t.validate v = .ok none)
    ∧ ((∀ t ∈ ts₁, t.validate v = .ok none) → tv.validate v = .ok (some w) →
      (AnyOf (ts₁ ++ tv :: ts₂)).validate v
          = .ok (some (.tuple [.vref ts₁.length, w]))
      ∧ (AnyOf (ts₁ ++ tv :: ts₂)).normalize (.tuple [.vref ts₁.length, w])
          = tv.normalize w) := by
  constructor
  · exact anyOfGo_none_iff v (ts₁ ++ tv :: ts₂) 0
  · intro h1 h2
    constructor
    · show anyOfGo v 0 (ts₁ ++ tv :: ts₂) = _
      rw [anyOfGo_append_of_none v ts₁ (tv :: ts₂) h1 0, Nat.zero_add, anyOfGo, h2]
      rfl
    · show (match (ts₁ ++ tv :: ts₂).get? ts₁.length with
        | some t => t.normalize w
        | none => Val.tuple [.vref ts₁.length, w]) = tv.normalize w
      rw [List.get?_append_right (Nat.le_refl ts₁.length)]
      simp

/-- C4 witness: `StringType` fails on a function node, `FuncType`
matches it, so the two-validator union returns the second validator's
pair and delegates normalization to it. -/
theorem c4_anyof_first_match_witness :
    (AnyOf [StringType, FuncType]).validate (.expr (.anonymous "RANDOM" []))
      = .ok (some (.tuple [.vref 1, .expr (.anonymous "RANDOM" [])]))
    ∧ (AnyOf [StringType, FuncType]).normalize
        (.tuple [.vref 1, .expr (.anonymous "RANDOM" [])])
      = FuncType.normalize (.expr (.anonymous "RANDOM" [])) :=
  (c4_anyof_first_match [StringType] [] FuncType
      (.expr (.anonymous "RANDOM" [])) (.expr (.anonymous "RANDOM" []))).2
    (by intro t ht; rw [List.mem_singleton] at ht; rw [ht]; rfl) rfl

/-- Modelled from the spec's words (for comparison with the code's
`GenericPropertyType`): the generic fallback accepts exactly a plain
string, a quoted literal, or an identifier. -/
def specGenericAccepts : Val → Prop
  | .str _ => True
  | .expr (.literal _ _) => True
  | .expr (.identifier _ _) => True
  | _ => False

/-- C7.  For every property name absent from `PROPERTY_INPUT_SPEC`,
`validate_and_normalize_property` runs the generic fallback
`GenericPropertyType`, which accepts exactly a plain string, a quoted
literal, or an identifier (first conjunct), and normalizes every
accepted value to a plain string (second conjunct). -/
theorem c7_generic_fallback (name : String) (v : Val)
    (habsent : PROPERTY_INPUT_SPEC.find? (fun p => p.1 = name) = none) :
    ((∃ r, validateAndNormalizeProperty name v = .ok r) ↔ specGenericAccepts v)
    ∧ (∀ r, validateAndNormalizeProperty name v = .ok r → ∃ s, r = .str s) := by
  have hget : getPropertyInputType name = GenericPropertyType := by
    simp [getPropertyInputType, habsent]
  constructor
  · constructor
    · rintro ⟨r, hr⟩
      simp only [validateAndNormalizeProperty, hget] at hr
      cases v with
      | str s => trivial
      | expr e => cases e <;> trivial
      | _ => exact Except.noConfusion hr
    · intro hacc
      simp only [validateAndNormalizeProperty, hget]
      cases v with
      | str s => exact ⟨.str s, rfl⟩
      | expr e =>
        cases e with
        | literal a b => exact ⟨.str a, rfl⟩
        | identifier a b => exact ⟨.str a, rfl⟩
        | _ => exact absurd hacc (by simp [specGenericAccepts])
      | _ => exact absurd hacc (by simp [specGenericAccepts])
  · intro r hr
    simp only [validateAndNormalizeProperty, hget] at hr
    cases v with
    | str s =>
      injection hr with h'
      exact ⟨s, h'.symm⟩
    | expr e =>
      cases e with
      | literal a b => injection hr with h'; exact ⟨a, h'.symm⟩
      | identifier a b => injection hr with h'; exact ⟨a, h'.symm⟩
      | _ => exact Except.noConfusion hr
    | _ => exact Except.noConfusion hr

/-- C7 witness: `replication_num` is not in the specification table; a
number literal is accepted and normalized to the plain string `"3"`, as
is the plain string `"SSD"` for `storage_medium`. -/
theorem c7_generic_fallback_witness :
    ((∃ r, validateAndNormalizeProperty "replication_num" (.expr (.literal "3" false)) = .ok r)
      ↔ specGenericAccepts (.expr (.literal "3" false)))
    ∧ (∀ r, validateAndNormalizeProperty "replication_num" (.expr (.literal "3" false)) = .ok r →
        ∃ s, r = .str s) :=
  c7_generic_fallback "replication_num" (.expr (.literal "3" false)) rfl

/-- A group element rejected by the key=value probe contributes nothing
to the structured-tuple pair loop, in any position and under any
strictness flags. -/
theorem stPairsGo_skip_non_eq (fields : List (String × FieldSpec))
    (aliasMap : List (String × String)) (name : String) (eu ei : Bool)
    (elem : Expr) (h : stPairStep fields aliasMap name eu ei elem = .skip) :
    ∀ (xs ys : List Expr) (acc : List (String × Val)),
      stPairsGo fields aliasMap name eu ei (xs ++ elem :: ys) acc
        = stPairsGo fields aliasMap name eu ei (xs ++ ys) acc := by
  intro xs
  induction xs with
  | nil =>
    intro ys acc
    simp only [List.nil_append, stPairsGo, h]
  | cons x xtl ih =>
    intro ys acc
    simp only [List.cons_append, stPairsGo]
    cases hx : stPairStep fields aliasMap name eu ei x with
    | skip => exact ih ys acc
    | err e => rfl
    | abort => rfl
    | store canonical vv => exact ih ys (dictSet acc canonical vv)

/-- `StructuredTupleType.validate` on a tuple node, written as the pair
loop followed by the required-field check (definitional unfolding). -/
theorem structuredTuple_validate_tuple (name : String) (fields : List (String × FieldSpec))
    (eu ei : Bool) (l : List Expr) :
    (StructuredTupleType name fields eu ei).validate (.expr (.tuple l))
      = (stPairsGo fields (buildAliasMap fields) name eu ei l []).bind
          (fun res =>
            match res with
            | none => .ok none
            | some result =>
              match stRequiredMissing fields result with
              | some missing =>
                if ei then
                  .error (.valueError
                    ("Required field '" ++ missing ++ "' is missing in " ++ name))
                else
                  .ok none
              | none => .ok (some (.dict result))) := rfl

/-- C9.  In both strict and probe modes, a group element that the
key=value validator rejects (a non-EQ expression) is silently skipped:
no error is raised on its account and the validation result equals that
of the same group with the element removed. -/
theorem c9_non_eq_elements_skipped (name : String) (fields : List (String × FieldSpec))
    (eu ei : Bool) (xs ys : List Expr) (elem : Expr)
    (h : eqPair (.expr elem) = none) :
    (StructuredTupleType name fields eu ei).validate (.expr (.tuple (xs ++ elem :: ys)))
      = (StructuredTupleType name fields eu ei).validate (.expr (.tuple (xs ++ ys))) := by
  have hskip : stPairStep fields (buildAliasMap fields) name eu ei elem = .skip := by
    simp only [stPairStep, h]
  rw [structuredTuple_validate_tuple, structuredTuple_validate_tuple,
    stPairsGo_skip_non_eq fields (buildAliasMap fields) name eu ei elem hskip xs ys []]

/-- C9 witness: dropping a bare column element from a probe-mode
distribution tuple leaves the validation result unchanged. -/
theorem c9_non_eq_elements_skipped_witness :
    (DistributionTupleType false false).validate
        (.expr (.tuple [.eq (colId "kind") (.literal "RANDOM" true), colId "x"]))
      = (DistributionTupleType false false).validate
        (.expr (.tuple [.eq (colId "kind") (.literal "RANDOM" true)])) :=
  c9_non_eq_elements_skipped "DistributionTupleType" distributionFields false false
    [.eq (colId "kind") (.literal "RANDOM" true)] [] (colId "x") rfl

/-- `Except` bind on a success. -/
theorem except_bind_ok {ε α β : Type} (a : α) (f : α → Except ε β) :
    ((Except.ok a : Except ε α) >>= f) = f a := rfl

/-- `_build_table_properties_exp` never changes the caller's mapping: it
works on `dict(table_properties)`, a private copy. -/
theorem buildTablePropertiesExp_preserves (td : Option String) (pb : List Expr)
    (cb : Option (List Expr)) (props : List (String × Val))
    (cl : Option (List TableClause)) (fin : List (String × Val))
    (h : buildTablePropertiesExp td pb cb props = .ok (cl, fin)) : fin = props := by
  simp only [buildTablePropertiesExp] at h
  cases h1 : addKeyProperties props with
  | error e => rw [h1] at h; exact Except.noConfusion h
  | ok kb =>
    obtain ⟨kcl, p1⟩ := kb
    rw [h1] at h
    simp only [except_bind_ok] at h
    cases h2 : buildDistributionProperty p1 with
    | error e => rw [h2] at h; exact Except.noConfusion h
    | ok db =>
      obtain ⟨dp, p2⟩ := db
      rw [h2] at h
      simp only [except_bind_ok] at h
      cases h3 : buildOrderByProperty p2 cb with
      | error e => rw [h3] at h; exact Except.noConfusion h
      | ok ob =>
        obtain ⟨op, p3⟩ := ob
        rw [h3] at h
        simp only [except_bind_ok] at h
        injection h with h'
        exact (congrArg Prod.snd h').symm

/-- When the `primary_key` parameter is falsy, or no key-type property
is present, key extraction returns the caller's mapping untouched. -/
theorem extractAndValidateKeyColumns_preserves (props : List (String × Val))
    (pk : Option (List String)) (r : Option String × Option (List String))
    (fin : List (String × Val))
    (hcond : pkTruthy pk = false ∨ keyTypesPresent props = [])
    (h : extractAndValidateKeyColumns props pk = .ok (r, fin)) : fin = props := by
  simp only [extractAndValidateKeyColumns] at h
  by_cases hlen : 1 < (keyTypesPresent props).length
  · rw [if_pos hlen] at h; exact Except.noConfusion h
  · rw [if_neg hlen] at h
    by_cases hpk : pkTruthy pk
    · rw [if_pos hpk] at h
      cases hcond with
      | inl hfalse => rw [hfalse] at hpk; exact Bool.noConfusion hpk
      | inr hempty =>
        rw [hempty] at h
        rw [if_pos (show ([] : List String).isEmpty = true from rfl)] at h
        injection h with h'
        exact (congrArg Prod.snd h').symm
    · rw [if_neg hpk] at h
      by_cases hp : (keyTypesPresent props).isEmpty
      · rw [if_pos hp] at h
        injection h with h'
        exact (congrArg Prod.snd h').symm
      · rw [if_neg hp] at h
        cases hx : exprToColumnTuple
            (dictGetD props ((keyTypesPresent props).headD "") .none) with
        | error e => rw [hx] at h; exact Except.noConfusion h
        | ok cols =>
          rw [hx] at h
          injection h with h'
          exact (congrArg Prod.snd h').symm

/-- C8 (amended).  `_build_table_properties_exp` performs all entry
removal on a private copy, so it never changes the caller's mapping
(first conjunct); and a whole builder invocation (key extraction,
reordering, clause building) leaves the caller's mapping unchanged
PROVIDED the explicit `primary_key` parameter does not override a
key-type property found in the mapping — the overriding case pops that
property from the caller's mapping (see the counterexample). -/
theorem c8_builder_preserves_caller_mapping (props : List (String × Val))
    (cols : List (String × String)) (pk : Option (List String))
    (td : Option String) (pb : List Expr) (cb : Option (List Expr)) :
    (∀ cl fin, buildTablePropertiesExp td pb cb props = .ok (cl, fin) → fin = props)
    ∧ ((pkTruthy pk = false ∨ keyTypesPresent props = []) →
      ∀ out colsOut fin,
        createTableFromColumnsState props cols pk td pb cb = .ok (out, colsOut, fin) →
        fin = props) := by
  constructor
  · intro cl fin h
    exact buildTablePropertiesExp_preserves td pb cb props cl fin h
  · intro hcond out colsOut fin h
    simp only [createTableFromColumnsState] at h
    cases he : extractAndValidateKeyColumns props pk with
    | error e => rw [he] at h; exact Except.noConfusion h
    | ok rp =>
      obtain ⟨r, p1⟩ := rp
      obtain ⟨kt, kc0⟩ := r
      have hp1 : p1 = props :=
        extractAndValidateKeyColumns_preserves props pk (kt, kc0) p1 hcond he
      rw [he] at h
      simp only [except_bind_ok] at h
      cases hk : keyReorderStep kt kc0 cols with
      | error e => rw [hk] at h; exact Except.noConfusion h
      | ok co =>
        rw [hk] at h
        simp only [except_bind_ok] at h
        cases hb : buildTablePropertiesExp td pb cb p1 with
        | error e => rw [hb] at h; exact Except.noConfusion h
        | ok bp =>
          obtain ⟨cl2, fin2⟩ := bp
          rw [hb] at h
          simp only [except_bind_ok] at h
          injection h with h'
          have hfin : fin = fin2 := (congrArg (fun q => q.2.2) h').symm
          rw [hfin, buildTablePropertiesExp_preserves td pb cb p1 cl2 fin2 hb, hp1]

/-- C8 witness for the amended theorem: without an explicit primary-key
parameter, a full invocation over a mapping holding `duplicate_key` and
a generic property returns the mapping unchanged. -/
theorem c8_builder_preserves_caller_mapping_witness :
    ∀ out colsOut fin,
      createTableFromColumnsState
          [("duplicate_key", .expr (.tuple [colId "a"])), ("replication_num", .str "3")]
          [("a", "INT"), ("b", "INT")] none none [] none
        = .ok (out, colsOut, fin) →
      fin = [("duplicate_key", .expr (.tuple [colId "a"])), ("replication_num", .str "3")] :=
  (c8_builder_preserves_caller_mapping
      [("duplicate_key", .expr (.tuple [colId "a"])), ("replication_num", .str "3")]
      [("a", "INT"), ("b", "INT")] none none [] none).2 (Or.inl rfl)

/-- C10 (amended).  When `distributed_by` reaches the builder: a value
that is not a tuple node yields no distribution clause (first conjunct),
as does a tuple yielding no recognized entry (second conjunct); a tuple
with at least one recognized entry but no `kind` key emits a
distribution property whose kind defaults to `RANDOM` — PROVIDED the
`expressions` entries convert to columns and the `buckets` entry, when
truthy, is accepted by `int()`; a non-numeric bucket value instead
raises (see the counterexample).  In every case the entry is popped from
the builder's mapping. -/
theorem c10_distribution_defaults (props : List (String × Val)) :
    (∀ v, dictGet props "distributed_by" = some v →
      (∀ es, v ≠ .expr (.tuple es)) →
      buildDistributionProperty props = .ok (none, dictErase props "distributed_by"))
    ∧ (∀ es, dictGet props "distributed_by" = some (.expr (.tuple es)) →
      distInfoOf es = [] →
      buildDistributionProperty props = .ok (none, dictErase props "distributed_by"))
    ∧ (∀ es, dictGet props "distributed_by" = some (.expr (.tuple es)) →
      distInfoOf es ≠ [] →
      dictGet (distInfoOf es) "kind" = none →
      ∀ l, (distExpressionsOf (distInfoOf es)).mapM toColumnVal = Except.ok l →
        (pyTruthy (dictGetD (distInfoOf es) "buckets" .none) = false →
          buildDistributionProperty props
            = .ok (some (.distributed "RANDOM" l none), dictErase props "distributed_by"))
        ∧ (∀ n, pyTruthy (dictGetD (distInfoOf es) "buckets" .none) = true →
          pyIntOf (dictGetD (distInfoOf es) "buckets" .none) = .ok n →
          buildDistributionProperty props
            = .ok (some (.distributed "RANDOM" l (some n)),
                   dictErase props "distributed_by"))) := by
  refine ⟨?_, ?_, ?_⟩
  · intro v hget hne
    have hinfo : (match v with
        | Val.expr (Expr.tuple es) => distInfoOf es
        | _ => ([] : List (String × Val))) = [] := by
      cases v with
      | expr e =>
        cases e with
        | tuple es => exact absurd rfl (hne es)
        | _ => rfl
      | _ => rfl
    simp only [buildDistributionProperty, hget, buildDistributionFromValue, hinfo]
    rfl
  · intro es hget hempty
    simp only [buildDistributionProperty, hget, buildDistributionFromValue]
    rw [hempty]
    rfl
  · intro es hget hne hkind l hl
    have hX : ¬((distInfoOf es).isEmpty = true) := by
      cases hI : distInfoOf es with
      | nil => exact absurd hI hne
      | cons a tl => intro hc; exact Bool.noConfusion hc
    have hk : dictGetD (distInfoOf es) "kind" (.str "RANDOM") = .str "RANDOM" := by
      simp [dictGetD, hkind]
    constructor
    · intro hb
      simp only [buildDistributionProperty, hget, buildDistributionFromValue]
      rw [if_neg hX, hk, hl, hb]
      rfl
    · intro n hb hn
      simp only [buildDistributionProperty, hget, buildDistributionFromValue]
      rw [if_neg hX, hk, hl, hb, hn]
      rfl

/-- C10 witness for the amended theorem: `(buckets=10)` has a recognized
entry, no `kind` key and a numeric bucket count, so the builder emits
`DISTRIBUTED BY RANDOM BUCKETS 10` and pops the entry; and a bare
(non-tuple) value emits nothing. -/
theorem c10_distribution_defaults_witness :
    buildDistributionProperty
        [("distributed_by", .expr (.tuple [.eq (colId "buckets") (.literal "10" false)]))]
      = .ok (some (.distributed "RANDOM" [] (some 10)), [])
    ∧ buildDistributionProperty [("distributed_by", .str "whatever"), ("x", .str "y")]
      = .ok (none, [("x", .str "y")]) :=
  ⟨(((c10_distribution_defaults
        [("distributed_by", .expr (.tuple [.eq (colId "buckets") (.literal "10" false)]))]).2.2
      [.eq (colId "buckets") (.literal "10" false)] rfl
      (fun hc => List.noConfusion hc) rfl [] rfl).2 10 rfl rfl),
   ((c10_distribution_defaults [("distributed_by", .str "whatever"), ("x", .str "y")]).1
      (.str "whatever") rfl (fun _ hc => Val.noConfusion hc))⟩

/-- Dict assignment with a fresh key appends. -/
theorem dictSet_append {α : Type} (d : List (String × α)) (k : String) (v : α)
    (h : ∀ p ∈ d, p.1 ≠ k) : dictSet d k v = d ++ [(k, v)] := by
  have hany : d.any (fun p => p.1 = k) = false := by
    rw [List.any_eq_false]
    intro p hp
    simp [h p hp]
  simp [dictSet, hany]

/-- Folding dict assignments of pairwise-distinct fresh keys appends
them in order. -/
theorem foldl_dictSet_map (f : String → String) :
    ∀ (ks : List String) (acc : List (String × String)),
      ks.Nodup → (∀ k ∈ ks, ∀ p ∈ acc, p.1 ≠ k) →
      ks.foldl (fun a k => dictSet a k (f k)) acc = acc ++ ks.map (fun k => (k, f k)) := by
  intro ks
  induction ks with
  | nil => intro acc _ _; simp
  | cons k tl ih =>
    intro acc hnd hfresh
    simp only [List.foldl_cons, List.map_cons]
    rw [dictSet_append acc k (f k) (fun p hp => hfresh k (List.mem_cons_self k tl) p hp)]
    rw [ih (acc ++ [(k, f k)]) (List.nodup_cons.mp hnd).2 ?_]
    · simp
    · intro k' hk' p hp
      rcases List.mem_append.mp hp with h1 | h2
      · exact hfresh k' (List.mem_cons_of_mem k hk') p h1
      · rw [List.mem_singleton] at h2
        rw [h2]
        intro hcontra
        have hke : k = k' := hcontra
        exact (List.nodup_cons.mp hnd).1 (hke ▸ hk')

/-- Folding the non-key column assignments appends exactly the filtered
non-key columns in their original order. -/
theorem foldl_dictSet_filter :
    ∀ (cols : List (String × String)) (keys : List String) (acc : List (String × String)),
      (cols.map Prod.fst).Nodup →
      (∀ p ∈ cols, p.1 ∉ keys → ∀ q ∈ acc, q.1 ≠ p.1) →
      cols.foldl (fun a p => if p.1 ∈ keys then a else dictSet a p.1 p.2) acc
        = acc ++ cols.filter (fun p => p.1 ∉ keys) := by
  intro cols
  induction cols with
  | nil => intro keys acc _ _; simp
  | cons p tl ih =>
    intro keys acc hnd hfresh
    have hnd' : (p.1 :: tl.map Prod.fst).Nodup := by simpa using hnd
    have htlnd : (tl.map Prod.fst).Nodup := (List.nodup_cons.mp hnd').2
    have hhead : p.1 ∉ tl.map Prod.fst := (List.nodup_cons.mp hnd').1
    simp only [List.foldl_cons]
    by_cases hk : p.1 ∈ keys
    · rw [if_pos hk]
      rw [ih keys acc htlnd
        (fun q hq hqk r hr => hfresh q (List.mem_cons_of_mem p hq) hqk r hr)]
      simp [List.filter_cons, hk]
    · rw [if_neg hk]
      rw [dictSet_append acc p.1 p.2
        (fun q hq => hfresh p (List.mem_cons_self p tl) hk q hq)]
      rw [ih keys (acc ++ [(p.1, p.2)]) htlnd ?_]
      · simp [List.filter_cons, hk]
      · intro q hq hqk r hr
        rcases List.mem_append.mp hr with h1 | h2
        · exact hfresh q (List.mem_cons_of_mem p hq) hqk r h1
        · rw [List.mem_singleton] at h2
          rw [h2]
          intro hcontra
          have hpq : p.1 ∈ tl.map Prod.fst := by
            have hqe : p.1 = q.1 := hcontra
            rw [hqe]
            exact List.mem_map_of_mem Prod.fst hq
          exact hhead hpq

/-- `find?` on the key part of the reordered mapping returns each key's
entry. -/
theorem find_map_self (f : String → String) (k : String) :
    ∀ keys : List String, k ∈ keys →
      (keys.map (fun x => (x, f x))).find? (fun p => p.1 = k) = some (k, f k) := by
  intro keys
  induction keys with
  | nil => intro h; exact absurd h (List.not_mem_nil k)
  | cons k' tl ih =>
    intro h
    simp only [List.map_cons]
    by_cases he : k' = k
    · subst he
      rw [List.find?_cons_of_pos _ (by simp)]
    · rw [List.find?_cons_of_neg _ (by simp [he])]
      exact ih ((List.mem_cons.mp h).resolve_left (fun hh => he hh.symm))

/-- `find?` over an append when the left part already matches. -/
theorem find_append_left {α : Type} (l₁ l₂ : List α) (p : α → Bool) (a : α)
    (h : l₁.find? p = some a) : (l₁ ++ l₂).find? p = some a := by
  induction l₁ with
  | nil => exact absurd h (by simp)
  | cons x tl ih =>
    by_cases hx : p x
    · rw [List.find?_cons_of_pos _ hx] at h
      rw [List.cons_append, List.find?_cons_of_pos _ hx]
      exact h
    · rw [List.find?_cons_of_neg _ hx] at h
      rw [List.cons_append, List.find?_cons_of_neg _ hx]
      exact ih h

/-- Pointwise-equal functions map lists equally. -/
theorem map_congr_mem {α β : Type} (l : List α) (f g : α → β)
    (h : ∀ a ∈ l, f a = g a) : l.map f = l.map g := by
  induction l with
  | nil => rfl
  | cons x tl ih =>
    simp only [List.map_cons]
    rw [h x (List.mem_cons_self x tl), ih (fun a ha => h a (List.mem_cons_of_mem x ha))]

/-- Filtering with the same predicate twice is the same as once. -/
theorem filter_idem {α : Type} (q : α → Bool) (l : List α) :
    (l.filter q).filter q = l.filter q := by
  induction l with
  | nil => rfl
  | cons x tl ih =>
    by_cases hx : q x
    · simp [List.filter_cons, hx, ih]
    · simp [List.filter_cons, hx, ih]

/-- A filter whose predicate holds nowhere is empty. -/
theorem filter_eq_nil_of {α : Type} (l : List α) (p : α → Bool)
    (h : ∀ a ∈ l, p a = false) : l.filter p = [] := by
  induction l with
  | nil => rfl
  | cons x tl ih =>
    simp [List.filter_cons, h x (List.mem_cons_self x tl),
      ih (fun a ha => h a (List.mem_cons_of_mem x ha))]

/-- `dictGetD` through an explicit `find?` fact. -/
theorem dictGetD_eq_of_find {α : Type} (d : List (String × α)) (k : String) (dflt v : α)
    (a : String × α) (hfind : d.find? (fun p => p.1 = k) = some a) (hv : a.2 = v) :
    dictGetD d k dflt = v := by
  simp [dictGetD, dictGet, hfind, hv]

/-- C5 (amended).  For every column mapping with (necessarily) distinct
names and every key-column list of DISTINCT names all present in the
mapping, `_reorder_columns_for_key` returns the key columns first, in
the exact key-clause order, each with its type from the original mapping
(`dictGetD cols k`), followed by every non-key column in its original
relative order (the filter); and reordering the already-reordered
mapping is a no-op (second conjunct).  With a repeated key name the
first part fails — see the counterexample. -/
theorem c5_reorder_columns_for_key (cols : List (String × String)) (keys : List String)
    (kt : String) (hkeys : keys.Nodup) (hcols : (cols.map Prod.fst).Nodup)
    (hsub : ∀ k ∈ keys, k ∈ cols.map Prod.fst) :
    reorderColumnsForKey cols keys kt
      = .ok (keys.map (fun k => (k, dictGetD cols k "")) ++
             cols.filter (fun p => p.1 ∉ keys))
    ∧ reorderColumnsForKey
        (keys.map (fun k => (k, dictGetD cols k "")) ++
         cols.filter (fun p => p.1 ∉ keys)) keys kt
      = .ok (keys.map (fun k => (k, dictGetD cols k "")) ++
             cols.filter (fun p => p.1 ∉ keys)) := by
  have hmiss : ∀ (d : List (String × String)), (∀ k ∈ keys, ∃ p ∈ d, p.1 = k) →
      keys.filter (fun k => !(d.any (fun p => p.1 = k))) = [] := by
    intro d hd
    apply filter_eq_nil_of
    intro k hk
    obtain ⟨p, hp, hpk⟩ := hd k hk
    have hany : d.any (fun p => p.1 = k) = true := List.any_eq_true.mpr ⟨p, hp, by simp [hpk]⟩
    simp [hany]
  have hfresh1 : ∀ p ∈ cols, p.1 ∉ keys →
      ∀ q ∈ keys.map (fun k => (k, dictGetD cols k "")), q.1 ≠ p.1 := by
    intro p hp hpk q hq hcontra
    obtain ⟨k, hk, hke⟩ := List.mem_map.mp hq
    have hq1 : q.1 = k := by rw [← hke]
    exact hpk (by rw [← hcontra, hq1]; exact hk)
  constructor
  · have h1 : keys.filter (fun k => !(cols.any (fun p => p.1 = k))) = [] := by
      apply hmiss cols
      intro k hk
      obtain ⟨p, hp, hpk⟩ := List.mem_map.mp (hsub k hk)
      exact ⟨p, hp, hpk⟩
    simp only [reorderColumnsForKey, h1]
    rw [if_neg (by decide)]
    rw [foldl_dictSet_map (fun k => dictGetD cols k "") keys []
      hkeys (by intro k _ p hp; exact absurd hp (List.not_mem_nil p))]
    rw [List.nil_append]
    rw [foldl_dictSet_filter cols keys _ hcols hfresh1]
  · have hgetR : ∀ k ∈ keys,
        dictGetD (keys.map (fun k => (k, dictGetD cols k "")) ++
          cols.filter (fun p => p.1 ∉ keys)) k "" = dictGetD cols k "" := by
      intro k hk
      have hfind := find_append_left
        (keys.map (fun x => (x, dictGetD cols x "")))
        (cols.filter (fun p => p.1 ∉ keys))
        (fun p => p.1 = k) (k, dictGetD cols k "")
        (find_map_self (fun x => dictGetD cols x "") k keys hk)
      exact dictGetD_eq_of_find _ k "" _ _ hfind rfl
    have h1R : keys.filter (fun k =>
        !((keys.map (fun x => (x, dictGetD cols x "")) ++
           cols.filter (fun p => p.1 ∉ keys)).any (fun p => p.1 = k))) = [] := by
      apply hmiss
      intro k hk
      exact ⟨(k, dictGetD cols k ""),
        List.mem_append_left _ (List.mem_map_of_mem _ hk), rfl⟩
    have hkeyfst : (keys.map (fun k => (k, dictGetD cols k ""))).map Prod.fst = keys := by
      rw [List.map_map]
      rw [map_congr_mem keys (Prod.fst ∘ fun k => (k, dictGetD cols k "")) id
        (fun a _ => rfl)]
      exact List.map_id keys
    have hrestnd : ((cols.filter (fun p => p.1 ∉ keys)).map Prod.fst).Nodup :=
      List.Nodup.sublist (List.Sublist.map Prod.fst (List.filter_sublist cols)) hcols
    have hdisj : keys.Disjoint ((cols.filter (fun p => p.1 ∉ keys)).map Prod.fst) := by
      intro k hk hkrest
      obtain ⟨p, hp, hpk⟩ := List.mem_map.mp hkrest
      have hpmem := List.mem_filter.mp hp
      have : (p.1 ∉ keys) := by simpa using hpmem.2
      exact this (hpk ▸ hk)
    have hndR : (((keys.map (fun k => (k, dictGetD cols k ""))) ++
        cols.filter (fun p => p.1 ∉ keys)).map Prod.fst).Nodup := by
      rw [List.map_append, hkeyfst]
      exact List.Nodup.append hkeys hrestnd hdisj
    have hfreshR : ∀ p ∈ (keys.map (fun k => (k, dictGetD cols k "")) ++
        cols.filter (fun q => q.1 ∉ keys)), p.1 ∉ keys →
        ∀ q ∈ keys.map (fun k => (k, dictGetD cols k "")), q.1 ≠ p.1 := by
      intro p _ hpk q hq hcontra
      obtain ⟨k, hk, hke⟩ := List.mem_map.mp hq
      have hq1 : q.1 = k := by rw [← hke]
      exact hpk (by rw [← hcontra, hq1]; exact hk)
    have hfilterR : (keys.map (fun k => (k, dictGetD cols k "")) ++
        cols.filter (fun p => p.1 ∉ keys)).filter (fun p => p.1 ∉ keys)
        = cols.filter (fun p => p.1 ∉ keys) := by
      rw [List.filter_append]
      have h2 : (keys.map (fun k => (k, dictGetD cols k ""))).filter
          (fun p => p.1 ∉ keys) = [] := by
        apply filter_eq_nil_of
        intro p hp
        obtain ⟨k, hk, hke⟩ := List.mem_map.mp hp
        have hp1 : p.1 = k := by rw [← hke]
        simp [hp1, hk]
      rw [h2, filter_idem, List.nil_append]
    simp only [reorderColumnsForKey, h1R]
    rw [if_neg (by decide)]
    rw [foldl_dictSet_map (fun k => dictGetD (keys.map (fun x => (x, dictGetD cols x "")) ++
        cols.filter (fun p => p.1 ∉ keys)) k "") keys []
      hkeys (by intro k _ p hp; exact absurd hp (List.not_mem_nil p))]
    rw [List.nil_append]
    rw [map_congr_mem keys _ _ (fun k hk => by rw [hgetR k hk])]
    rw [foldl_dictSet_filter _ keys _ hndR hfreshR]
    rw [hfilterR]

/-- C5 witness for the amended theorem, on the spec's worked example:
columns `{customer_id, order_id, event_date}` with key
`(order_id, event_date)` reorder to
`{order_id, event_date, customer_id}` with types unchanged, and
reordering the result again is a no-op. -/
theorem c5_reorder_columns_for_key_witness :
    reorderColumnsForKey
        [("customer_id", "INT"), ("order_id", "BIGINT"), ("event_date", "DATE")]
        ["order_id", "event_date"] "primary_key"
      = .ok (["order_id", "event_date"].map
          (fun k => (k, dictGetD [("customer_id", "INT"), ("order_id", "BIGINT"),
            ("event_date", "DATE")] k "")) ++
          [("customer_id", "INT"), ("order_id", "BIGINT"),
            ("event_date", "DATE")].filter
            (fun p => p.1 ∉ ["order_id", "event_date"]))
    ∧ reorderColumnsForKey
        (["order_id", "event_date"].map
          (fun k => (k, dictGetD [("customer_id", "INT"), ("order_id", "BIGINT"),
            ("event_date", "DATE")] k "")) ++
          [("customer_id", "INT"), ("order_id", "BIGINT"),
            ("event_date", "DATE")].filter
            (fun p => p.1 ∉ ["order_id", "event_date"]))
        ["order_id", "event_date"] "primary_key"
      = .ok (["order_id", "event_date"].map
          (fun k => (k, dictGetD [("customer_id", "INT"), ("order_id", "BIGINT"),
            ("event_date", "DATE")] k "")) ++
          [("customer_id", "INT"), ("order_id", "BIGINT"),
            ("event_date", "DATE")].filter
            (fun p => p.1 ∉ ["order_id", "event_date"])) :=
  c5_reorder_columns_for_key
    [("customer_id", "INT"), ("order_id", "BIGINT"), ("event_date", "DATE")]
    ["order_id", "event_date"] "primary_key"
    (by decide) (by decide) (by decide)

end StarRocks
